import Mathlib

/-!
Verification of the imajin-image-compressor core against its specification.

The development shallowly embeds the repository's core modules:
`src/core/compressor.py`, `src/core/converter.py`,
`src/core/conflict_checker.py` and `src/utils/metadata.py`.

Paths are lists of characters; the `os.path` helpers the code calls
(`basename`, `splitext`, `join` in their POSIX variants) are embedded
directly.  The Pillow image library is the external codec: images are
records carrying the observable attributes the code reads (`mode`,
`size`, `format`, EXIF tags, pixel provenance), the filesystem is a map
from paths to files, and the encoder proper is an uninterpreted
parameter (`Codec.encode`) so theorems quantify over every encoder
behaviour.  Pillow behaviours the repository's control flow depends on
are modelled explicitly and documented at each definition (e.g.
`Image.convert` copies the `info` dictionary, `Image.save` with a
missing AVIF plugin raises `KeyError('AVIF')` before the output file is
opened, and a save failure removes the output only if `save` itself
created it).
-/

/-- A filesystem path, as the list of its characters (POSIX rules). -/
abbrev PyPath := List Char

/-- Models `posixpath.basename`: everything after the last slash. -/
def pyBasename (p : PyPath) : PyPath :=
  (p.reverse.takeWhile (fun c => c ≠ '/')).reverse

/-- The complement of `pyBasename`: the prefix of the path up to and
including the last slash (empty when the path has no slash). -/
def pyDirPart (p : PyPath) : PyPath :=
  (p.reverse.dropWhile (fun c => c ≠ '/')).reverse

/-- Models the extension test inside `posixpath.splitext`: a basename
has an extension exactly when it still contains a dot after its leading
dots are removed (leading dots never start an extension). -/
def hasValidExt (b : PyPath) : Bool :=
  (b.dropWhile (fun c => c = '.')).contains '.'

/-- The part of a basename strictly before its last dot. -/
def beforeLastDot (b : PyPath) : PyPath :=
  ((b.reverse.dropWhile (fun c => c ≠ '.')).drop 1).reverse

/-- Models `posixpath.splitext(p)[0]`: the path without its extension.
The extension is cut from the basename only (dots in directories are
ignored) and only when `hasValidExt` holds, matching CPython's
`posixpath.splitext`. -/
def splitextRoot (p : PyPath) : PyPath :=
  if hasValidExt (pyBasename p) then pyDirPart p ++ beforeLastDot (pyBasename p) else p

/-- Models `posixpath.join(a, b)` for a single right operand. -/
def pyJoin (a b : PyPath) : PyPath :=
  if b.head? = some '/' then b
  else if a = [] ∨ a.getLast? = some '/' then a ++ b
  else a ++ '/' :: b

/-- Truncation toward zero, the semantics of Python's `int()` applied to
a numeric value (`int(0.9) = 0`, `int(-3.7) = -3`). -/
def pyTrunc (q : ℚ) : ℤ :=
  q.num.tdiv q.den

/-- Embeds `validate_quality` (src/core/compressor.py):
`return max(1, min(100, int(quality)))`. -/
def validate_quality (quality : ℚ) : ℤ :=
  max 1 (min 100 (pyTrunc quality))

example : pyTrunc (mkRat 9 10) = 0 := by decide
example : pyTrunc (mkRat (-37) 10) = -3 := by decide
example : validate_quality (mkRat 9 10) = 1 := by decide
example : validate_quality (mkRat 1009 10) = 100 := by decide
example : validate_quality (150 : ℚ) = 100 := by decide
example : validate_quality (-5 : ℚ) = 1 := by decide

/-- String and path literals used by the embedded code (named so they can
appear in application positions). -/
def rgbMode : String := "RGB"

def webpExt : PyPath := ".webp".data

def avifExt : PyPath := ".avif".data

def cannotWriteModeStr : PyPath := "cannot write mode".data

def avifSubStr : PyPath := "avif".data

def errPre : String := "Error: "

def avifPluginMsg : String :=
  "AVIF plugin not installed. Install with: pip install pillow-avif-plugin"

def divisionByZeroMsg : String := "division by zero"

def stripErrPre : String := "Error removing metadata: "

def stripOkMsg : String := "Metadata removed successfully"

/-- Python's `in` operator on strings: `needle in hay` is true when
`needle` occurs contiguously inside `hay`. -/
def pyInStr (needle hay : List Char) : Bool :=
  (List.range (hay.length + 1)).any fun i => needle.isPrefixOf (hay.drop i)

/-- Python's `str.lower()` (character-wise lowercasing; the strings the
code lowercases are ASCII format names and exception text). -/
def pyLower (s : String) : String :=
  ⟨s.data.map Char.toLower⟩

/-- Pixel data with its provenance.  The arithmetic of Pillow's pixel
operations lives in the external codec; what the core's control flow
determines — and what we track — is which operation produced the data. -/
inductive PixelData where
  | raw (bytes : List Nat)
  | converted (p : PixelData) (mode : String)
  | compositedWhite (p : PixelData)
deriving DecidableEq

/-- The keyword arguments the code passes to `Image.save`.  `quality` is
`none` when the call did not pass a quality (as in `strip_metadata`). -/
structure SaveOpts where
  quality : Option ℤ
  optimize : Bool
  method : Option Nat
  exif : List (Nat × Nat)
deriving DecidableEq

/-- An encoded image file as stored on disk: the attributes Pillow
recovers when reopening it, plus `encQuality`, the quality value that
was handed to the encoder when the file was written (`none` for files
that predate the run). -/
structure ImgData where
  mode : String
  width : Nat
  height : Nat
  format : String
  exif : List (Nat × Nat)
  pixels : PixelData
  encQuality : Option ℤ
deriving DecidableEq

/-- Contents of a file: a decodable image, or bytes Pillow cannot
identify (corrupt sources, truncated outputs). -/
inductive FileContent where
  | image (d : ImgData)
  | other
deriving DecidableEq

/-- A file on disk.  `statOk` is false when `os.path.getsize` /
`os.path.getmtime` would raise despite the file existing (permissions,
races), the case `check_conflicts` guards with try/except. -/
structure FsFile where
  size : Nat
  mtime : ℤ
  statOk : Bool
  content : FileContent
deriving DecidableEq

/-- The filesystem: a map from paths to files. -/
def Fs : Type := PyPath → Option FsFile

def updateFs (fs : Fs) (p : PyPath) (v : Option FsFile) : Fs :=
  fun q => if q = p then v else fs q

/-- `os.path.getsize` for a path known to exist (0 as junk default). -/
def fsSize (fs : Fs) (p : PyPath) : Nat :=
  match fs p with
  | some f => f.size
  | none => 0

/-- An in-memory Pillow image: the attributes the core reads.  `format`
is `none` for images built in memory (`Image.new`, `Image.convert`)
and set for images opened from disk. -/
structure PILImage where
  mode : String
  width : Nat
  height : Nat
  format : Option String
  exif : List (Nat × Nat)
  pixels : PixelData
deriving DecidableEq

def toPILImage (d : ImgData) : PILImage :=
  { mode := d.mode, width := d.width, height := d.height,
    format := some d.format, exif := d.exif, pixels := d.pixels }

/-- Models `Image.open(path)`: fails (raises) when the path is missing
or the bytes are not a decodable image; otherwise yields the decoded
image with its detected format. -/
def pilOpen (fs : Fs) (p : PyPath) : Except String PILImage :=
  match fs p with
  | none => .error "No such file or directory"
  | some f =>
    match f.content with
    | .image d => .ok (toPILImage d)
    | .other => .error "cannot identify image file"

/-- Models `Image.convert(mode)`.  Pillow's `Image._new` copies the
source's `info` dictionary into the converted image, so EXIF data
(`info['exif']`, what `getexif()` parses) survives a mode conversion;
the `format` attribute of the fresh image is `None`. -/
def pilConvert (img : PILImage) (mode : String) : PILImage :=
  { mode := mode, width := img.width, height := img.height,
    format := none, exif := img.exif, pixels := .converted img.pixels mode }

/-- Models lines 35-37 of converter.py: `Image.new('RGB', size, white)`
followed by `background.paste(img, mask=alpha)`.  The fresh background
has an empty `info` dictionary and `paste` copies pixels only, so the
result carries no EXIF. -/
def whiteCompositeOnto (img : PILImage) : PILImage :=
  { mode := rgbMode, width := img.width, height := img.height,
    format := none, exif := [], pixels := .compositedWhite img.pixels }

/-- The runtime environment: encoder availability and the external
encoder itself, left uninterpreted (`encode` returns the byte size of
the encoded file, or the message of the exception it raises).
`renderMsg` stands for the success-message formatting (f-strings over
floats), which no claim inspects. -/
structure Codec where
  avifAvailable : Bool
  encode : String → PILImage → SaveOpts → Except String Nat
  renderMsg : String → Nat → Nat → String
  mtimeNow : ℤ

/-- Models `Image.save(path, format=fmt, **opts)` as called by this
repository (the format is always passed explicitly by the code, and is
`none` only in unreached corners).  Pillow behaviours relied on:
a missing AVIF plugin raises `KeyError('AVIF')` (str `'AVIF'`) at the
`SAVE` registry lookup, before the output file is opened; otherwise
`save` opens the output with `open(filename, 'w+b')` (truncating any
existing file) before running the encoder, and if the encoder raises,
Pillow removes the output only when `save` itself created it
(`created = not os.path.exists(filename)`, Pillow >= 9.5), leaving a
truncated file behind when the output pre-existed.  The next two
definitions name the two kinds of file a save can leave on disk:
the encoded image with the save keywords' metadata and quality
recorded, and the truncated leftover of a failed save over a
pre-existing file. -/
def encodedFile (env : Codec) (fmt : String) (img : PILImage) (opts : SaveOpts)
    (n : Nat) : FsFile :=
  { size := n, mtime := env.mtimeNow, statOk := true,
    content := .image
      { mode := img.mode, width := img.width, height := img.height,
        format := fmt, exif := opts.exif, pixels := img.pixels,
        encQuality := opts.quality } }

def truncatedFile (env : Codec) : FsFile :=
  { size := 0, mtime := env.mtimeNow, statOk := true, content := .other }

/-- Models `Image.save` proper; see the comment on `encodedFile`. -/
def pilSave (env : Codec) (fs : Fs) (p : PyPath) (fmt : Option String)
    (img : PILImage) (opts : SaveOpts) : Fs × Option String :=
  match fmt with
  | none => (fs, some "unknown file extension")
  | some f =>
    if f = "AVIF" ∧ env.avifAvailable = false then (fs, some "'AVIF'")
    else
      match env.encode f img opts with
      | .ok n => (updateFs fs p (some (encodedFile env f img opts n)), none)
      | .error e =>
        if (fs p).isNone then (fs, some e)
        else (updateFs fs p (some (truncatedFile env)), some e)

/-- Which of the three color-mode actions lines 27-41 of converter.py
select for a given source mode and target format. -/
inductive NormAction where
  | keep
  | compositeWhite
  | convertRGB
deriving DecidableEq

/-- Embeds the branch structure of converter.py lines 27-41:
`if img.mode in ('RGBA', 'LA', 'P'):` — keep RGBA for WebP, composite
RGBA onto white otherwise, plain-convert `LA`/`P` to RGB —
`elif img.mode != 'RGB': img = img.convert('RGB')`. -/
def codeModePolicy (mode : String) (target : String) : NormAction :=
  if mode = "RGBA" ∨ mode = "LA" ∨ mode = "P" then
    if pyLower target = "webp" ∧ mode = "RGBA" then .keep
    else if mode = "RGBA" then .compositeWhite
    else .convertRGB
  else if mode ≠ "RGB" then .convertRGB
  else .keep

/-- The color-mode normalization `convert_image` performs before
encoding (converter.py lines 27-41). -/
def normalizeForTarget (img : PILImage) (target : String) : PILImage :=
  match codeModePolicy img.mode target with
  | .keep => img
  | .compositeWhite => whiteCompositeOnto img
  | .convertRGB => pilConvert img rgbMode

/-- Models `os.path.splitext(output_path)[0]` followed by appending the
target extension — the derivation convert_image applies to the output
path it was given (converter.py lines 56-62). -/
def convertWritePath (output : PyPath) (ext : PyPath) : PyPath :=
  splitextRoot output ++ ext

/-- Shared success epilogue of compress_image/convert_image: read the
output size from disk, compute the reduction percentage (a zero-byte
original raises ZeroDivisionError, caught by the outer handler), and
return the formatted message. -/
def finishResult (env : Codec) (fs : Fs) (tag : String)
    (original_size : Nat) (outPath : PyPath) : (Bool × String × ℚ) × Fs :=
  let new_size := fsSize fs outPath
  if original_size = 0 then ((false, errPre ++ divisionByZeroMsg, 0), fs)
  else
    let size_reduction : ℚ :=
      ((original_size : ℚ) - (new_size : ℚ)) / (original_size : ℚ) * 100
    ((true, env.renderMsg tag original_size new_size, size_reduction), fs)

/-- The `save_kwargs` convert_image builds (converter.py lines 43-54):
quality, best-effort method 6, and the normalized image's EXIF exactly
when metadata is kept, the snapshot is non-empty and the target is
WebP. -/
def convertOpts (img : PILImage) (target : String) (quality : ℤ)
    (remove_metadata : Bool) : SaveOpts :=
  { quality := some quality, optimize := false, method := some 6,
    exif := if remove_metadata = false ∧ 0 < img.exif.length ∧ pyLower target = "webp"
            then img.exif else [] }

/-- Embeds `convert_image` (src/core/converter.py).  The whole body runs
under `try/except Exception`, so the function is total: every raised
exception becomes a `(False, "Error: ...", 0.0)` result. -/
def convert_image (env : Codec) (fs : Fs) (input output : PyPath)
    (target : String) (quality : ℤ) (remove_metadata : Bool) :
    (Bool × String × ℚ) × Fs :=
  match pilOpen fs input with
  | .error e => ((false, errPre ++ e, 0), fs)
  | .ok img0 =>
    let original_size := fsSize fs input
    let img := normalizeForTarget img0 target
    let save_kwargs : SaveOpts := convertOpts img target quality remove_metadata
    if pyLower target = "webp" then
      let outPath := convertWritePath output webpExt
      match pilSave env fs outPath (some "WEBP") img save_kwargs with
      | (fs', some e) => ((false, errPre ++ e, 0), fs')
      | (fs', none) => finishResult env fs' target original_size outPath
    else if pyLower target = "avif" then
      let outPath := convertWritePath output avifExt
      match pilSave env fs outPath (some "AVIF") img save_kwargs with
      | (fs', some e) =>
        if pyInStr cannotWriteModeStr (pyLower e).data ∨ pyInStr avifSubStr (pyLower e).data
        then ((false, avifPluginMsg, 0), fs')
        else ((false, errPre ++ e, 0), fs')
      | (fs', none) => finishResult env fs' target original_size outPath
    else ((false, "Unsupported target format: " ++ target, 0), fs)

/-- The `save_kwargs` compress_image builds (compressor.py lines 28-45):
quality, encoder optimization, and (when metadata is kept and the
snapshot non-empty) the source's EXIF. -/
def compressOpts (exif : List (Nat × Nat)) (quality : ℤ) : SaveOpts :=
  { quality := some quality, optimize := true, method := none, exif := exif }

/-- The JPEG-alpha flattening of compressor.py lines 37-39 and 47-49:
`if original_format == 'JPEG' and img.mode == 'RGBA': img.convert('RGB')`
(applied in both metadata branches). -/
def compressedImg (img0 : PILImage) : PILImage :=
  if img0.format = some "JPEG" ∧ img0.mode = "RGBA"
  then pilConvert img0 rgbMode else img0

/-- Embeds `compress_image` (src/core/compressor.py), total for the same
reason as `convert_image`. -/
def compress_image (env : Codec) (fs : Fs) (input output : PyPath)
    (quality : ℤ) (remove_metadata : Bool) : (Bool × String × ℚ) × Fs :=
  match pilOpen fs input with
  | .error e => ((false, errPre ++ e, 0), fs)
  | .ok img0 =>
    let original_size := fsSize fs input
    let original_format := img0.format
    let savePair :=
      if remove_metadata then
        pilSave env fs output original_format (compressedImg img0)
          (compressOpts [] quality)
      else
        let exif_data := img0.exif
        let save_kwargs := if 0 < exif_data.length
                           then compressOpts exif_data quality
                           else compressOpts [] quality
        pilSave env fs output original_format (compressedImg img0) save_kwargs
    match savePair with
    | (fs', some e) => ((false, errPre ++ e, 0), fs')
    | (fs', none) => finishResult env fs' "Compressed" original_size output

/-- Embeds `has_exif_data` (src/utils/metadata.py): any failure to open
yields `False`; otherwise tests `len(img.getexif()) > 0`. -/
def has_exif_data (fs : Fs) (image_path : PyPath) : Bool :=
  match pilOpen fs image_path with
  | .ok img => decide (0 < img.exif.length)
  | .error _ => false

/-- The rebuilt image of metadata.py lines 66-68:
`Image.new(img.mode, img.size)` + `putdata(list(img.getdata()))` — same
mode, size and pixel values, fresh empty `info` (no EXIF), no format. -/
def strippedImg (img : PILImage) : PILImage :=
  { mode := img.mode, width := img.width, height := img.height,
    format := none, exif := [], pixels := img.pixels }

/-- `strip_metadata` saves with no keyword arguments at all. -/
def stripOpts : SaveOpts :=
  { quality := none, optimize := false, method := none, exif := [] }

/-- Embeds `strip_metadata` (src/utils/metadata.py): rebuild the image
from raw pixel data and save it in the source's format with no
metadata keyword. -/
def strip_metadata (env : Codec) (fs : Fs) (image_path output_path : PyPath) :
    (Bool × String) × Fs :=
  match pilOpen fs image_path with
  | .error e => ((false, stripErrPre ++ e), fs)
  | .ok img =>
    let img_format := img.format
    match pilSave env fs output_path img_format (strippedImg img) stripOpts with
    | (fs', some e) => ((false, stripErrPre ++ e), fs')
    | (fs', none) => ((true, stripOkMsg), fs')

/-- A conflict record as built by `check_conflicts`. -/
structure ConflictRecord where
  input : PyPath
  output : PyPath
  existing_size : Nat
  existing_modified : ℤ
  output_filename : PyPath
deriving DecidableEq

/-- The output-filename derivation of `check_conflicts`
(src/core/conflict_checker.py lines 34-47). -/
def conflictOutputFilename (input_basename : PyPath) (output_format : String) : PyPath :=
  if output_format = "Keep Original" then input_basename
  else if output_format = "WebP" then splitextRoot input_basename ++ webpExt
  else if output_format = "AVIF" then splitextRoot input_basename ++ avifExt
  else input_basename

/-- Embeds `check_conflicts` (src/core/conflict_checker.py): for each
input, derive the predicted output path and emit a record when a file
already exists there, degrading to size 0 / epoch when its metadata
cannot be read. -/
def check_conflicts (fs : Fs) (image_paths : List PyPath)
    (output_folder : PyPath) (output_format : String) : List ConflictRecord :=
  image_paths.filterMap fun input_path =>
    let input_basename := pyBasename input_path
    let output_filename := conflictOutputFilename input_basename output_format
    let output_path := pyJoin output_folder output_filename
    match fs output_path with
    | none => none
    | some f =>
      some { input := input_path, output := output_path,
             existing_size := if f.statOk then f.size else 0,
             existing_modified := if f.statOk then f.mtime else 0,
             output_filename := output_filename }

/-- Modelled from the spec: the batch orchestrator (`src/ui/main_window.py`,
which is not among the provided source files) constructs each request's
output path as the output directory joined with the input file's
basename (spec section 2 "requests are constructed by the orchestrator per
input file" together with the ConflictChecker contract of section 4.2). -/
def requestOutputPath (output_dir input_path : PyPath) : PyPath :=
  pyJoin output_dir (pyBasename input_path)

/-- Modelled from the spec: "`quality` is always clamped to `[1,100]`
before use" (spec section 3) — the orchestrator in the absent
`src/ui/main_window.py` passes the caller's quality through
`validate_quality` before handing it to `compress_image` /
`convert_image`, which place it unchanged into `save_kwargs['quality']`
for the encoder. -/
def effectiveEncoderQuality (quality : ℚ) : ℤ :=
  validate_quality quality

/-- The clamp the specification names: `clamp(quality, 1, 100)`. -/
def specClampQuality (q : ℚ) : ℚ :=
  max 1 (min 100 q)

/-- Concrete environments and files used by witnesses and counterexamples. -/
def codecOk (n : Nat) : Codec :=
  { avifAvailable := true, encode := fun _ _ _ => .ok n,
    renderMsg := fun _ _ _ => "ok", mtimeNow := 7 }

def codecNoAvif (n : Nat) : Codec :=
  { codecOk n with avifAvailable := false }

def codecFail (msg : String) : Codec :=
  { avifAvailable := true, encode := fun _ _ _ => .error msg,
    renderMsg := fun _ _ _ => "ok", mtimeNow := 7 }

def pxSample : PixelData := .raw [1, 2, 3, 4]

def exifSample : List (Nat × Nat) := [(274, 1)]

def laSource : ImgData :=
  { mode := "LA", width := 2, height := 2, format := "PNG",
    exif := exifSample, pixels := pxSample, encQuality := none }

def pSource : ImgData :=
  { mode := "P", width := 2, height := 2, format := "PNG",
    exif := exifSample, pixels := pxSample, encQuality := none }

def rgbJpegSource : ImgData :=
  { mode := "RGB", width := 3, height := 2, format := "JPEG",
    exif := exifSample, pixels := pxSample, encQuality := none }

def mkSrcFile (d : ImgData) (n : Nat) : FsFile :=
  { size := n, mtime := 5, statOk := true, content := .image d }

def inPng : PyPath := "photos/in.png".data

def outReq : PyPath := "out/in.png".data

def outWebp : PyPath := "out/in.webp".data

def outAvif : PyPath := "out/in.avif".data

def fsOf (d : ImgData) (n : Nat) : Fs :=
  fun p => if p = inPng then some (mkSrcFile d n) else none

example :
    (convert_image (codecOk 12) (fsOf laSource 10) inPng outReq "webp" 80 true).1.1
      = true := by decide

example :
    ((convert_image (codecOk 12) (fsOf laSource 10) inPng outReq "webp" 80 true).2 outWebp)
      = some { size := 12, mtime := 7, statOk := true,
               content := .image
                 { mode := "RGB", width := 2, height := 2, format := "WEBP",
                   exif := [], pixels := .converted pxSample "RGB",
                   encQuality := some 80 } } := by decide

example :
    (convert_image (codecNoAvif 12) (fsOf pSource 10) inPng outReq "avif" 80 false).1
      = (false, avifPluginMsg, 0) := by decide

example :
    (compress_image (codecOk 4) (fsOf rgbJpegSource 10) inPng outReq 85 false).1.1
      = true := by decide

example :
    (strip_metadata (codecOk 4) (fsOf rgbJpegSource 10) inPng outReq).1
      = (true, stripOkMsg) := by decide

example :
    has_exif_data ((strip_metadata (codecOk 4) (fsOf rgbJpegSource 10) inPng outReq).2) outReq
      = false := by decide

example :
    check_conflicts (fsOf laSource 10) [inPng] ("photos".data) "Keep Original"
      = [{ input := inPng, output := inPng, existing_size := 10,
           existing_modified := 5, output_filename := "in.png".data }] := by decide

/-- More named string literals (for application positions). -/
def webpT : String := "webp"

def avifT : String := "avif"

def webpFmt : String := "WebP"

def avifFmt : String := "AVIF"

def keepFmt : String := "Keep Original"

def laM : String := "LA"

def pM : String := "P"

def rgbaM : String := "RGBA"

theorem pyTrunc_eq_floor_of_nonneg (q : ℚ) (h : 0 ≤ q) : pyTrunc q = ⌊q⌋ := by
  rw [pyTrunc, Rat.floor_def, Int.tdiv_eq_ediv (Rat.num_nonneg.mpr h) (by positivity)]

theorem pyTrunc_nonpos (q : ℚ) (h : q < 1) : pyTrunc q ≤ 0 := by
  rcases le_or_lt 0 q with hq | hq
  · rw [pyTrunc_eq_floor_of_nonneg q hq]
    have : ⌊q⌋ < 1 := Int.floor_lt.mpr (by exact_mod_cast h)
    omega
  · have hn : q.num < 0 := Rat.num_neg.mpr hq
    rw [pyTrunc]
    have h1 : Int.tdiv (-q.num) q.den ≥ 0 := Int.tdiv_nonneg (by omega) (by positivity)
    have h2 : Int.tdiv (-q.num) q.den = -(Int.tdiv q.num q.den) := Int.neg_tdiv q.num q.den
    omega

theorem pyTrunc_ge_100 (q : ℚ) (h : 100 < q) : 100 ≤ pyTrunc q := by
  have hq : (0 : ℚ) ≤ q := by linarith
  rw [pyTrunc_eq_floor_of_nonneg q hq]
  exact Int.le_floor.mpr (by exact_mod_cast h.le)

theorem pyTrunc_intCast (n : ℤ) : pyTrunc ((n : ℤ) : ℚ) = n := by
  simp [pyTrunc]

/-- C8: `validate_quality` always lands in `[1, 100]`; integers already
in `[1, 100]` pass through unchanged; non-integer input is truncated
toward zero before clamping, so `validate_quality(0.9) = 1` and
`validate_quality(100.9) = 100` (and clamping happens after the
truncation, by definition). -/
theorem claim_C8 :
    (∀ q : ℚ, 1 ≤ validate_quality q ∧ validate_quality q ≤ 100) ∧
    (∀ n : ℤ, 1 ≤ n → n ≤ 100 → validate_quality ((n : ℤ) : ℚ) = n) ∧
    (∀ q : ℚ, validate_quality q = max 1 (min 100 (pyTrunc q))) ∧
    validate_quality (mkRat 9 10) = 1 ∧
    validate_quality (mkRat 1009 10) = 100 ∧
    validate_quality (mkRat (-37) 10) = 1 := by
  refine ⟨fun q => ⟨le_max_left _ _, ?_⟩, fun n h1 h2 => ?_, fun q => rfl, ?_, ?_, ?_⟩
  · exact max_le (by norm_num) (min_le_left _ _)
  · rw [validate_quality, pyTrunc_intCast]
    omega
  · decide
  · decide
  · decide

/-- Witness for C8 at the concrete in-range integer 50. -/
theorem claim_C8_witness : validate_quality ((50 : ℤ) : ℚ) = 50 :=
  claim_C8.2.1 50 (by decide) (by decide)

/-- C1 (amended): what converter.py lines 27-41 actually do.  An RGBA
source keeps its alpha exactly when the target is WebP, and is
composited onto an opaque white background (alpha as mask) for any
other target; `LA` and `P` sources are plain-converted to RGB by
`Image.convert` — no white compositing, no alpha preservation, for
every target including WebP; every other non-RGB mode is converted to
RGB; RGB passes through untouched.  The last conjunct ties the policy
to the image operation `convert_image` applies. -/
theorem claim_C1_amended (mode target : String) :
    (mode = "RGBA" → pyLower target = "webp" → codeModePolicy mode target = .keep) ∧
    (mode = "RGBA" → pyLower target ≠ "webp" → codeModePolicy mode target = .compositeWhite) ∧
    (mode = "LA" ∨ mode = "P" → codeModePolicy mode target = .convertRGB) ∧
    (mode ≠ "RGBA" → mode ≠ "LA" → mode ≠ "P" → mode ≠ "RGB" →
      codeModePolicy mode target = .convertRGB) ∧
    (mode = "RGB" → codeModePolicy mode target = .keep) ∧
    (∀ img : PILImage, img.mode = mode →
      normalizeForTarget img target =
        match codeModePolicy mode target with
        | .keep => img
        | .compositeWhite => whiteCompositeOnto img
        | .convertRGB => pilConvert img rgbMode) := by
  refine ⟨?_, ?_, ?_, ?_, ?_, ?_⟩
  · intro h1 h2; simp [codeModePolicy, h1, h2]
  · intro h1 h2; simp [codeModePolicy, h1, h2]
  · rintro (h | h) <;> subst h <;> simp [codeModePolicy]
  · intro h1 h2 h3 h4; simp [codeModePolicy, h1, h2, h3, h4]
  · intro h; simp [codeModePolicy, h]
  · intro img h; rw [normalizeForTarget, h]

/-- Witness for the amended C1 at mode `LA`, target `webp`. -/
theorem claim_C1_witness : codeModePolicy laM webpT = .convertRGB :=
  (claim_C1_amended laM webpT).2.2.1 (Or.inl rfl)

/-- Counterexample to C1 as stated: the claim says that for a WebP
target, alpha-bearing sources are encoded as-is with alpha preserved.
But an `LA` (grayscale + alpha) source converting to WebP is
plain-converted to RGB: the policy picks `convertRGB`, not `keep`, and
running the full pipeline stores an image whose mode is `RGB`, not the
source's `LA` — the alpha channel is gone.  (The claim's other half
also fails: a palette (`P`) source is never white-composited; it takes
the same `Image.convert('RGB')` path.) -/
theorem claim_C1_counterexample :
    laSource.mode = laM ∧
    codeModePolicy laM webpT = NormAction.convertRGB ∧
    codeModePolicy laM webpT ≠ NormAction.keep ∧
    codeModePolicy pM avifT ≠ NormAction.compositeWhite ∧
    ((convert_image (codecOk 12) (fsOf laSource 10) inPng outReq webpT 80 false).2 outWebp)
      = some { size := 12, mtime := 7, statOk := true,
               content := .image
                 { mode := rgbMode, width := 2, height := 2, format := "WEBP",
                   exif := exifSample, pixels := .converted pxSample rgbMode,
                   encQuality := some 80 } } ∧
    rgbMode ≠ laM := by
  refine ⟨rfl, rfl, by decide, by decide, by decide, by decide⟩

theorem takeWhile_append_all {p : Char → Bool} (l₁ l₂ : List Char)
    (h : ∀ x ∈ l₁, p x = true) :
    (l₁ ++ l₂).takeWhile p = l₁ ++ l₂.takeWhile p := by
  induction l₁ with
  | nil => simp
  | cons a t ih => simp_all [List.takeWhile_cons]

theorem dropWhile_append_all {p : Char → Bool} (l₁ l₂ : List Char)
    (h : ∀ x ∈ l₁, p x = true) :
    (l₁ ++ l₂).dropWhile p = l₂.dropWhile p := by
  induction l₁ with
  | nil => simp
  | cons a t ih => simp_all [List.dropWhile_cons]

theorem head?_ne_slash (l : PyPath) (h : ∀ c ∈ l, c ≠ '/') :
    l.head? ≠ some '/' := by
  intro hc
  exact h '/' (List.mem_of_mem_head? (by simp [hc])) rfl

theorem pyBasename_noSlash (p : PyPath) : ∀ c ∈ pyBasename p, c ≠ '/' := by
  intro c hc
  have := List.mem_takeWhile_imp (List.mem_reverse.mp hc)
  simpa using this

theorem pyBasename_append (D b : PyPath) (hD : D = [] ∨ D.getLast? = some '/')
    (hb : ∀ c ∈ b, c ≠ '/') : pyBasename (D ++ b) = b := by
  rw [pyBasename, List.reverse_append,
    takeWhile_append_all _ _ (fun x hx => by simp [hb x (List.mem_reverse.mp hx)])]
  rcases hD with h | h
  · subst h; simp
  · have hh : D.reverse.head? = some '/' := by rw [List.head?_reverse]; exact h
    cases hrev : D.reverse with
    | nil => rw [hrev] at hh; simp at hh
    | cons a t =>
      rw [hrev] at hh
      simp only [List.head?_cons, Option.some.injEq] at hh
      subst hh
      simp [List.takeWhile_cons]

theorem pyDirPart_append (D b : PyPath) (hD : D = [] ∨ D.getLast? = some '/')
    (hb : ∀ c ∈ b, c ≠ '/') : pyDirPart (D ++ b) = D := by
  rw [pyDirPart, List.reverse_append,
    dropWhile_append_all _ _ (fun x hx => by simp [hb x (List.mem_reverse.mp hx)])]
  rcases hD with h | h
  · subst h; simp
  · have hh : D.reverse.head? = some '/' := by rw [List.head?_reverse]; exact h
    cases hrev : D.reverse with
    | nil => rw [hrev] at hh; simp at hh
    | cons a t =>
      rw [hrev] at hh
      simp only [List.head?_cons, Option.some.injEq] at hh
      subst hh
      rw [List.dropWhile_cons]
      simp [← hrev]

theorem pyBasename_of_noSlash (b : PyPath) (hb : ∀ c ∈ b, c ≠ '/') :
    pyBasename b = b := by
  simpa using pyBasename_append [] b (Or.inl rfl) hb

theorem pyDirPart_of_noSlash (b : PyPath) (hb : ∀ c ∈ b, c ≠ '/') :
    pyDirPart b = [] := by
  simpa using pyDirPart_append [] b (Or.inl rfl) hb

theorem splitextRoot_append (D b : PyPath) (hD : D = [] ∨ D.getLast? = some '/')
    (hb : ∀ c ∈ b, c ≠ '/') :
    splitextRoot (D ++ b) = D ++ splitextRoot b := by
  rw [splitextRoot, splitextRoot, pyBasename_append D b hD hb,
    pyDirPart_append D b hD hb, pyBasename_of_noSlash b hb, pyDirPart_of_noSlash b hb]
  split <;> simp

theorem mem_beforeLastDot (b : PyPath) (c : Char) (hc : c ∈ beforeLastDot b) :
    c ∈ b := by
  rw [beforeLastDot] at hc
  have h1 := List.mem_reverse.mp hc
  have h2 := (List.drop_sublist 1 _).subset h1
  have h3 := (List.dropWhile_sublist _).subset h2
  exact List.mem_reverse.mp h3

theorem mem_splitextRoot (b : PyPath) (hb : ∀ c ∈ b, c ≠ '/') (c : Char)
    (hc : c ∈ splitextRoot b) : c ∈ b := by
  rw [splitextRoot, pyBasename_of_noSlash b hb, pyDirPart_of_noSlash b hb] at hc
  split at hc
  · exact mem_beforeLastDot b c (by simpa using hc)
  · exact hc

theorem pyJoin_eq (a x : PyPath) (hx : x.head? ≠ some '/') :
    pyJoin a x =
      (if a = [] ∨ a.getLast? = some '/' then a else a ++ ['/']) ++ x := by
  rw [pyJoin, if_neg hx]
  split <;> simp

theorem dirHolder_slash (a : PyPath) :
    (if a = [] ∨ a.getLast? = some '/' then a else a ++ ['/']) = [] ∨
      (if a = [] ∨ a.getLast? = some '/' then a else a ++ ['/']).getLast? = some '/' := by
  split
  next h => exact h
  next h => right; exact List.getLast?_concat a

/-- Core path equivalence: joining the directory with
`splitext(basename)[0] + ext` (what check_conflicts computes) equals
taking `splitext` of the joined path and appending `ext` (what
convert_image computes from the request's output path). -/
theorem predicted_eq_actual (output_dir b ext : PyPath)
    (hb : ∀ c ∈ b, c ≠ '/') (hext : ∀ c ∈ ext, c ≠ '/') :
    pyJoin output_dir (splitextRoot b ++ ext) =
      splitextRoot (pyJoin output_dir b) ++ ext := by
  have hxmem : ∀ c ∈ splitextRoot b ++ ext, c ≠ '/' := by
    intro c hc
    rcases List.mem_append.mp hc with h | h
    · exact hb c (mem_splitextRoot b hb c h)
    · exact hext c h
  rw [pyJoin_eq output_dir b (head?_ne_slash b hb),
    pyJoin_eq output_dir _ (head?_ne_slash _ hxmem),
    splitextRoot_append _ b (dirHolder_slash output_dir) hb,
    List.append_assoc]

theorem fsSize_update_self (fs : Fs) (p : PyPath) (f : FsFile) :
    fsSize (updateFs fs p (some f)) p = f.size := by
  simp [fsSize, updateFs]

theorem pilSave_apply_ne (env : Codec) (fs : Fs) (p : PyPath) (fmt : Option String)
    (img : PILImage) (opts : SaveOpts) (q : PyPath) (h : q ≠ p) :
    (pilSave env fs p fmt img opts).1 q = fs q := by
  rcases fmt with _ | f
  · rfl
  · rw [pilSave]
    split
    · rfl
    · rcases henc : env.encode f img opts with e | n
      · rcases hfp : fs p with _ | file <;> simp [hfp, updateFs, h]
      · simp [updateFs, h]

theorem pilSave_ok_inv (env : Codec) (fs : Fs) (p : PyPath) (f : String)
    (img : PILImage) (opts : SaveOpts) (fs₂ : Fs)
    (h : pilSave env fs p (some f) img opts = (fs₂, none)) :
    ∃ n, env.encode f img opts = .ok n ∧
      fs₂ = updateFs fs p (some (encodedFile env f img opts n)) := by
  rw [pilSave] at h
  split at h
  · simp at h
  · rcases henc : env.encode f img opts with e | n
    · rw [henc] at h
      split at h <;> (try split at h) <;> simp_all
    · rw [henc] at h
      refine ⟨n, rfl, ?_⟩
      have h' : (updateFs fs p (some (encodedFile env f img opts n)),
          (none : Option String)) = (fs₂, none) := h
      exact ((Prod.mk.injEq _ _ _ _).mp h').1.symm

theorem convert_image_open_error (env : Codec) (fs : Fs) (input output : PyPath)
    (target : String) (q : ℤ) (rm : Bool) (e : String)
    (he : pilOpen fs input = .error e) :
    convert_image env fs input output target q rm = ((false, errPre ++ e, 0), fs) := by
  rw [convert_image, he]

theorem convert_image_webp_eq (env : Codec) (fs : Fs) (input output : PyPath)
    (target : String) (q : ℤ) (rm : Bool) (img0 : PILImage)
    (himg : pilOpen fs input = .ok img0) (hw : pyLower target = "webp") :
    convert_image env fs input output target q rm =
      (match pilSave env fs (convertWritePath output webpExt) (some "WEBP")
          (normalizeForTarget img0 target)
          (convertOpts (normalizeForTarget img0 target) target q rm) with
       | (fs', some e) => ((false, errPre ++ e, 0), fs')
       | (fs', none) =>
          finishResult env fs' target (fsSize fs input) (convertWritePath output webpExt)) := by
  rw [convert_image, himg]
  dsimp only
  rw [if_pos hw]

theorem convert_image_avif_eq (env : Codec) (fs : Fs) (input output : PyPath)
    (target : String) (q : ℤ) (rm : Bool) (img0 : PILImage)
    (himg : pilOpen fs input = .ok img0) (hw : pyLower target ≠ "webp")
    (ha : pyLower target = "avif") :
    convert_image env fs input output target q rm =
      (match pilSave env fs (convertWritePath output avifExt) (some "AVIF")
          (normalizeForTarget img0 target)
          (convertOpts (normalizeForTarget img0 target) target q rm) with
       | (fs', some e) =>
          if pyInStr cannotWriteModeStr (pyLower e).data ∨ pyInStr avifSubStr (pyLower e).data
          then ((false, avifPluginMsg, 0), fs')
          else ((false, errPre ++ e, 0), fs')
       | (fs', none) =>
          finishResult env fs' target (fsSize fs input) (convertWritePath output avifExt)) := by
  rw [convert_image, himg]
  dsimp only
  rw [if_neg hw, if_pos ha]

theorem convert_image_unsupported (env : Codec) (fs : Fs) (input output : PyPath)
    (target : String) (q : ℤ) (rm : Bool) (img0 : PILImage)
    (himg : pilOpen fs input = .ok img0) (hw : pyLower target ≠ "webp")
    (ha : pyLower target ≠ "avif") :
    convert_image env fs input output target q rm =
      ((false, "Unsupported target format: " ++ target, 0), fs) := by
  rw [convert_image, himg]
  dsimp only
  rw [if_neg hw, if_neg ha]

theorem compress_image_open_error (env : Codec) (fs : Fs) (input output : PyPath)
    (q : ℤ) (rm : Bool) (e : String)
    (he : pilOpen fs input = .error e) :
    compress_image env fs input output q rm = ((false, errPre ++ e, 0), fs) := by
  rw [compress_image, he]

/-- The save keywords compress_image ends up passing, as a function of
the metadata flag and the source's EXIF snapshot. -/
def compressSaveOpts (img0 : PILImage) (q : ℤ) (rm : Bool) : SaveOpts :=
  if rm then compressOpts [] q
  else if 0 < img0.exif.length then compressOpts img0.exif q
  else compressOpts [] q

theorem compress_image_eq (env : Codec) (fs : Fs) (input output : PyPath)
    (q : ℤ) (rm : Bool) (img0 : PILImage)
    (himg : pilOpen fs input = .ok img0) :
    compress_image env fs input output q rm =
      (match pilSave env fs output img0.format (compressedImg img0)
          (compressSaveOpts img0 q rm) with
       | (fs', some e) => ((false, errPre ++ e, 0), fs')
       | (fs', none) => finishResult env fs' "Compressed" (fsSize fs input) output) := by
  rw [compress_image, himg, compressSaveOpts]
  cases rm <;> rfl

theorem strip_metadata_open_error (env : Codec) (fs : Fs) (ip op : PyPath) (e : String)
    (he : pilOpen fs ip = .error e) :
    strip_metadata env fs ip op = ((false, stripErrPre ++ e), fs) := by
  rw [strip_metadata, he]

theorem strip_metadata_eq (env : Codec) (fs : Fs) (ip op : PyPath) (img : PILImage)
    (himg : pilOpen fs ip = .ok img) :
    strip_metadata env fs ip op =
      (match pilSave env fs op img.format (strippedImg img) stripOpts with
       | (fs', some e) => ((false, stripErrPre ++ e), fs')
       | (fs', none) => ((true, stripOkMsg), fs')) := by
  rw [strip_metadata, himg]

theorem finishResult_success_inv (env : Codec) (fs : Fs) (tag : String)
    (osz : Nat) (outPath : PyPath) (r : Bool × String × ℚ) (fs₂ : Fs)
    (h : finishResult env fs tag osz outPath = (r, fs₂)) (hs : r.1 = true) :
    osz ≠ 0 ∧ fs₂ = fs ∧
      r = (true, env.renderMsg tag osz (fsSize fs outPath),
           ((osz : ℚ) - (fsSize fs outPath : ℚ)) / (osz : ℚ) * 100) := by
  rw [finishResult] at h
  split at h
  · obtain ⟨h1, h2⟩ := (Prod.mk.injEq _ _ _ _).mp h
    rw [← h1] at hs
    simp at hs
  · obtain ⟨h1, h2⟩ := (Prod.mk.injEq _ _ _ _).mp h
    next hosz => exact ⟨hosz, h2.symm, h1.symm⟩

theorem finishResult_fail_inv (env : Codec) (fs : Fs) (tag : String)
    (osz : Nat) (outPath : PyPath) (r : Bool × String × ℚ) (fs₂ : Fs)
    (h : finishResult env fs tag osz outPath = (r, fs₂)) (hs : r.1 = false) :
    osz = 0 ∧ fs₂ = fs ∧ r = (false, errPre ++ divisionByZeroMsg, 0) := by
  rw [finishResult] at h
  split at h
  · obtain ⟨h1, h2⟩ := (Prod.mk.injEq _ _ _ _).mp h
    next hosz => exact ⟨hosz, h2.symm, h1.symm⟩
  · obtain ⟨h1, h2⟩ := (Prod.mk.injEq _ _ _ _).mp h
    rw [← h1] at hs
    simp at hs

theorem pilOpen_ok_inv (fs : Fs) (p : PyPath) (img0 : PILImage)
    (h : pilOpen fs p = .ok img0) :
    ∃ f d, fs p = some f ∧ f.content = .image d ∧ img0 = toPILImage d := by
  rw [pilOpen] at h
  rcases hfp : fs p with _ | f
  · rw [hfp] at h; simp at h
  · rw [hfp] at h
    have h₀ : (match f.content with
        | FileContent.image d => Except.ok (toPILImage d)
        | FileContent.other =>
            Except.error (α := PILImage) "cannot identify image file")
        = Except.ok img0 := h
    rcases hc : f.content with d | _
    · rw [hc] at h₀
      have h' : Except.ok (ε := String) (toPILImage d) = .ok img0 := h₀
      simp only [Except.ok.injEq] at h'
      exact ⟨f, d, rfl, hc, h'.symm⟩
    · rw [hc] at h₀; simp at h₀

theorem convert_image_success_shape (env : Codec) (fs : Fs) (input output : PyPath)
    (target : String) (q : ℤ) (rm : Bool) (r : Bool × String × ℚ) (fs₂ : Fs)
    (hrun : convert_image env fs input output target q rm = (r, fs₂))
    (hsucc : r.1 = true) :
    ∃ img0 fmt ext n,
      pilOpen fs input = .ok img0 ∧
      ((pyLower target = "webp" ∧ fmt = "WEBP" ∧ ext = webpExt) ∨
       (pyLower target ≠ "webp" ∧ pyLower target = "avif" ∧ fmt = "AVIF" ∧ ext = avifExt)) ∧
      fsSize fs input ≠ 0 ∧
      env.encode fmt (normalizeForTarget img0 target)
        (convertOpts (normalizeForTarget img0 target) target q rm) = .ok n ∧
      fs₂ = updateFs fs (convertWritePath output ext)
        (some (encodedFile env fmt (normalizeForTarget img0 target)
          (convertOpts (normalizeForTarget img0 target) target q rm) n)) ∧
      r = (true, env.renderMsg target (fsSize fs input) n,
           ((fsSize fs input : ℚ) - (n : ℚ)) / (fsSize fs input : ℚ) * 100) := by
  cases hOpen : pilOpen fs input with
  | error e =>
    rw [convert_image_open_error env fs input output target q rm e hOpen] at hrun
    obtain ⟨h1, h2⟩ := (Prod.mk.injEq _ _ _ _).mp hrun
    rw [← h1] at hsucc
    simp at hsucc
  | ok img0 =>
    by_cases hw : pyLower target = "webp"
    · rw [convert_image_webp_eq env fs input output target q rm img0 hOpen hw] at hrun
      rcases hSave : pilSave env fs (convertWritePath output webpExt) (some "WEBP")
          (normalizeForTarget img0 target)
          (convertOpts (normalizeForTarget img0 target) target q rm) with ⟨fs', oe⟩
      rw [hSave] at hrun
      cases oe with
      | some e =>
        have hrun' : ((false, errPre ++ e, 0), fs') = (r, fs₂) := hrun
        obtain ⟨h1, h2⟩ := (Prod.mk.injEq _ _ _ _).mp hrun'
        rw [← h1] at hsucc
        simp at hsucc
      | none =>
        have hrun' : finishResult env fs' target (fsSize fs input)
            (convertWritePath output webpExt) = (r, fs₂) := hrun
        obtain ⟨hosz, hfs₂, hr⟩ := finishResult_success_inv _ _ _ _ _ _ _ hrun' hsucc
        obtain ⟨n, henc, hfs'⟩ := pilSave_ok_inv _ _ _ _ _ _ _ hSave
        subst hfs'
        refine ⟨img0, "WEBP", webpExt, n, rfl, Or.inl ⟨hw, rfl, rfl⟩, hosz, henc,
          hfs₂, ?_⟩
        rw [hr, fsSize_update_self]
        rfl
    · by_cases ha : pyLower target = "avif"
      · rw [convert_image_avif_eq env fs input output target q rm img0 hOpen hw ha] at hrun
        rcases hSave : pilSave env fs (convertWritePath output avifExt) (some "AVIF")
            (normalizeForTarget img0 target)
            (convertOpts (normalizeForTarget img0 target) target q rm) with ⟨fs', oe⟩
        rw [hSave] at hrun
        cases oe with
        | some e =>
          have hrun' : ((if pyInStr cannotWriteModeStr (pyLower e).data ∨
              pyInStr avifSubStr (pyLower e).data
              then ((false, avifPluginMsg, 0), fs')
              else ((false, errPre ++ e, 0), fs')) : (Bool × String × ℚ) × Fs)
              = (r, fs₂) := hrun
          split at hrun'
          · obtain ⟨h1, h2⟩ := (Prod.mk.injEq _ _ _ _).mp hrun'
            rw [← h1] at hsucc
            simp at hsucc
          · obtain ⟨h1, h2⟩ := (Prod.mk.injEq _ _ _ _).mp hrun'
            rw [← h1] at hsucc
            simp at hsucc
        | none =>
          have hrun' : finishResult env fs' target (fsSize fs input)
              (convertWritePath output avifExt) = (r, fs₂) := hrun
          obtain ⟨hosz, hfs₂, hr⟩ := finishResult_success_inv _ _ _ _ _ _ _ hrun' hsucc
          obtain ⟨n, henc, hfs'⟩ := pilSave_ok_inv _ _ _ _ _ _ _ hSave
          subst hfs'
          refine ⟨img0, "AVIF", avifExt, n, rfl, Or.inr ⟨hw, ha, rfl, rfl⟩, hosz, henc,
            hfs₂, ?_⟩
          rw [hr, fsSize_update_self]
          rfl
      · rw [convert_image_unsupported env fs input output target q rm img0 hOpen hw ha] at hrun
        obtain ⟨h1, h2⟩ := (Prod.mk.injEq _ _ _ _).mp hrun
        rw [← h1] at hsucc
        simp at hsucc

theorem compress_image_success_shape (env : Codec) (fs : Fs) (input output : PyPath)
    (q : ℤ) (rm : Bool) (r : Bool × String × ℚ) (fs₂ : Fs)
    (hrun : compress_image env fs input output q rm = (r, fs₂))
    (hsucc : r.1 = true) :
    ∃ img0 f0 n,
      pilOpen fs input = .ok img0 ∧
      img0.format = some f0 ∧
      fsSize fs input ≠ 0 ∧
      env.encode f0 (compressedImg img0) (compressSaveOpts img0 q rm) = .ok n ∧
      fs₂ = updateFs fs output
        (some (encodedFile env f0 (compressedImg img0) (compressSaveOpts img0 q rm) n)) ∧
      r = (true, env.renderMsg "Compressed" (fsSize fs input) n,
           ((fsSize fs input : ℚ) - (n : ℚ)) / (fsSize fs input : ℚ) * 100) := by
  cases hOpen : pilOpen fs input with
  | error e =>
    rw [compress_image_open_error env fs input output q rm e hOpen] at hrun
    obtain ⟨h1, h2⟩ := (Prod.mk.injEq _ _ _ _).mp hrun
    rw [← h1] at hsucc
    simp at hsucc
  | ok img0 =>
    rw [compress_image_eq env fs input output q rm img0 hOpen] at hrun
    rcases hfmt : img0.format with _ | f0
    · rw [hfmt] at hrun
      have hrun' : ((false, errPre ++ "unknown file extension", 0), fs) = (r, fs₂) := hrun
      obtain ⟨h1, h2⟩ := (Prod.mk.injEq _ _ _ _).mp hrun'
      rw [← h1] at hsucc
      simp at hsucc
    · rw [hfmt] at hrun
      rcases hSave : pilSave env fs output (some f0) (compressedImg img0)
          (compressSaveOpts img0 q rm) with ⟨fs', oe⟩
      rw [hSave] at hrun
      cases oe with
      | some e =>
        have hrun' : ((false, errPre ++ e, 0), fs') = (r, fs₂) := hrun
        obtain ⟨h1, h2⟩ := (Prod.mk.injEq _ _ _ _).mp hrun'
        rw [← h1] at hsucc
        simp at hsucc
      | none =>
        have hrun' : finishResult env fs' "Compressed" (fsSize fs input) output
            = (r, fs₂) := hrun
        obtain ⟨hosz, hfs₂, hr⟩ := finishResult_success_inv _ _ _ _ _ _ _ hrun' hsucc
        obtain ⟨n, henc, hfs'⟩ := pilSave_ok_inv _ _ _ _ _ _ _ hSave
        subst hfs'
        refine ⟨img0, f0, n, rfl, hfmt, hosz, henc, hfs₂, ?_⟩
        rw [hr, fsSize_update_self]
        rfl

theorem pilSave_avif_unavailable (env : Codec) (fs : Fs) (p : PyPath)
    (img : PILImage) (opts : SaveOpts) (hav : env.avifAvailable = false) :
    pilSave env fs p (some "AVIF") img opts = (fs, some "'AVIF'") := by
  rw [pilSave]
  rw [if_pos ⟨rfl, hav⟩]

theorem pilSave_err_inv (env : Codec) (fs : Fs) (p : PyPath) (f : String)
    (img : PILImage) (opts : SaveOpts) (fs₂ : Fs) (e : String)
    (h : pilSave env fs p (some f) img opts = (fs₂, some e)) :
    (f = "AVIF" ∧ env.avifAvailable = false ∧ e = "'AVIF'" ∧ fs₂ = fs) ∨
    (env.encode f img opts = .error e ∧
      ((fs p = none ∧ fs₂ = fs) ∨
       (fs p ≠ none ∧ fs₂ = updateFs fs p (some (truncatedFile env))))) := by
  rw [pilSave] at h
  split at h
  · rename_i hc
    have h' : ((fs, some "'AVIF'") : Fs × Option String) = (fs₂, some e) := h
    obtain ⟨h1, h2⟩ := (Prod.mk.injEq _ _ _ _).mp h'
    simp only [Option.some.injEq] at h2
    exact Or.inl ⟨hc.1, hc.2, h2.symm, h1.symm⟩
  · rcases henc : env.encode f img opts with e' | n
    · rw [henc] at h
      have h' : ((if (fs p).isNone then (fs, some e')
          else (updateFs fs p (some (truncatedFile env)), some e')) : Fs × Option String)
          = (fs₂, some e) := h
      rcases hfp : fs p with _ | file
      · rw [hfp] at h'
        simp only [Option.isNone_none, if_pos] at h'
        obtain ⟨h1, h2⟩ := (Prod.mk.injEq _ _ _ _).mp h'
        simp only [Option.some.injEq] at h2
        subst h2
        exact Or.inr ⟨rfl, Or.inl ⟨rfl, h1.symm⟩⟩
      · rw [hfp] at h'
        simp only [Option.isNone_some, Bool.false_eq_true, if_false] at h'
        obtain ⟨h1, h2⟩ := (Prod.mk.injEq _ _ _ _).mp h'
        simp only [Option.some.injEq] at h2
        subst h2
        exact Or.inr ⟨rfl, Or.inr ⟨by simp, h1.symm⟩⟩
    · rw [henc] at h
      have h' : ((updateFs fs p (some (encodedFile env f img opts n)),
          (none : Option String)) : Fs × Option String) = (fs₂, some e) := h
      obtain ⟨h1, h2⟩ := (Prod.mk.injEq _ _ _ _).mp h'
      simp at h2

theorem codeModePolicy_composite_inv (m t : String)
    (h : codeModePolicy m t = .compositeWhite) :
    m = "RGBA" ∧ pyLower t ≠ "webp" := by
  rw [codeModePolicy] at h
  split at h
  · split at h
    · simp at h
    · split at h
      · rename_i h1 h2
        exact ⟨h2, fun hw => h1 ⟨hw, h2⟩⟩
      · simp at h
  · split at h <;> simp at h

theorem normalize_exif_webp (img : PILImage) (target : String)
    (hw : pyLower target = "webp") :
    (normalizeForTarget img target).exif = img.exif := by
  rw [normalizeForTarget]
  rcases hpol : codeModePolicy img.mode target with _ | _ | _
  · rfl
  · exact absurd hw (codeModePolicy_composite_inv _ _ hpol).2
  · rfl

theorem finishResult_snd (env : Codec) (fs : Fs) (tag : String) (osz : Nat)
    (op : PyPath) : (finishResult env fs tag osz op).2 = fs := by
  rw [finishResult]
  split <;> rfl

theorem convert_image_apply_ne (env : Codec) (fs : Fs) (input output : PyPath)
    (target : String) (q : ℤ) (rm : Bool) (p : PyPath)
    (hp1 : p ≠ convertWritePath output webpExt)
    (hp2 : p ≠ convertWritePath output avifExt) :
    (convert_image env fs input output target q rm).2 p = fs p := by
  cases hOpen : pilOpen fs input with
  | error e => rw [convert_image_open_error env fs input output target q rm e hOpen]
  | ok img0 =>
    by_cases hw : pyLower target = "webp"
    · rw [convert_image_webp_eq env fs input output target q rm img0 hOpen hw]
      rcases hSave : pilSave env fs (convertWritePath output webpExt) (some "WEBP")
          (normalizeForTarget img0 target)
          (convertOpts (normalizeForTarget img0 target) target q rm) with ⟨fs', oe⟩
      have hfs' : fs' p = fs p := by
        have hh := pilSave_apply_ne env fs (convertWritePath output webpExt) (some "WEBP")
          (normalizeForTarget img0 target)
          (convertOpts (normalizeForTarget img0 target) target q rm) p hp1
        rw [hSave] at hh
        exact hh
      cases oe with
      | some e => exact hfs'
      | none =>
        have hfin : (finishResult env fs' target (fsSize fs input)
            (convertWritePath output webpExt)).2 p = fs p := by
          rw [finishResult_snd]; exact hfs'
        exact hfin
    · by_cases ha : pyLower target = "avif"
      · rw [convert_image_avif_eq env fs input output target q rm img0 hOpen hw ha]
        rcases hSave : pilSave env fs (convertWritePath output avifExt) (some "AVIF")
            (normalizeForTarget img0 target)
            (convertOpts (normalizeForTarget img0 target) target q rm) with ⟨fs', oe⟩
        have hfs' : fs' p = fs p := by
          have hh := pilSave_apply_ne env fs (convertWritePath output avifExt) (some "AVIF")
            (normalizeForTarget img0 target)
            (convertOpts (normalizeForTarget img0 target) target q rm) p hp2
          rw [hSave] at hh
          exact hh
        cases oe with
        | some e =>
          have hgoal : ((if pyInStr cannotWriteModeStr (pyLower e).data ∨
              pyInStr avifSubStr (pyLower e).data
              then ((false, avifPluginMsg, 0), fs')
              else ((false, errPre ++ e, 0), fs')) : (Bool × String × ℚ) × Fs).2 p
              = fs p := by
            split <;> exact hfs'
          exact hgoal
        | none =>
          have hfin : (finishResult env fs' target (fsSize fs input)
              (convertWritePath output avifExt)).2 p = fs p := by
            rw [finishResult_snd]; exact hfs'
          exact hfin
      · rw [convert_image_unsupported env fs input output target q rm img0 hOpen hw ha]

theorem compress_image_apply_ne (env : Codec) (fs : Fs) (input output : PyPath)
    (q : ℤ) (rm : Bool) (p : PyPath) (hp : p ≠ output) :
    (compress_image env fs input output q rm).2 p = fs p := by
  cases hOpen : pilOpen fs input with
  | error e => rw [compress_image_open_error env fs input output q rm e hOpen]
  | ok img0 =>
    rw [compress_image_eq env fs input output q rm img0 hOpen]
    rcases hSave : pilSave env fs output img0.format (compressedImg img0)
        (compressSaveOpts img0 q rm) with ⟨fs', oe⟩
    have hfs' : fs' p = fs p := by
      have hh := pilSave_apply_ne env fs output img0.format (compressedImg img0)
        (compressSaveOpts img0 q rm) p hp
      rw [hSave] at hh
      exact hh
    cases oe with
    | some e => exact hfs'
    | none =>
      have hfin : (finishResult env fs' "Compressed" (fsSize fs input) output).2 p
          = fs p := by
        rw [finishResult_snd]; exact hfs'
      exact hfin

theorem fsSize_of_some (fs : Fs) (p : PyPath) (f : FsFile) (h : fs p = some f) :
    fsSize fs p = f.size := by
  simp [fsSize, h]

theorem compress_image_fail_fs (env : Codec) (fs : Fs) (input output : PyPath)
    (q : ℤ) (rm : Bool) (r : Bool × String × ℚ) (fs₂ : Fs)
    (hrun : compress_image env fs input output q rm = (r, fs₂)) (hfail : r.1 = false)
    (hsz : ∀ f, fs input = some f → f.size ≠ 0) :
    fs₂ = fs ∨
      (fs output ≠ none ∧ fs₂ = updateFs fs output (some (truncatedFile env))) := by
  cases hOpen : pilOpen fs input with
  | error e =>
    rw [compress_image_open_error env fs input output q rm e hOpen] at hrun
    exact Or.inl ((Prod.mk.injEq _ _ _ _).mp hrun).2.symm
  | ok img0 =>
    rw [compress_image_eq env fs input output q rm img0 hOpen] at hrun
    rcases hSave : pilSave env fs output img0.format (compressedImg img0)
        (compressSaveOpts img0 q rm) with ⟨fs', oe⟩
    rw [hSave] at hrun
    cases oe with
    | some e =>
      have hrun' : ((false, errPre ++ e, 0), fs') = (r, fs₂) := hrun
      have hfs₂ : fs₂ = fs' := ((Prod.mk.injEq _ _ _ _).mp hrun').2.symm
      rcases hfmt : img0.format with _ | f0
      · rw [hfmt] at hSave
        have h'' : ((fs, some "unknown file extension") : Fs × Option String)
            = (fs', some e) := hSave
        exact Or.inl (hfs₂.trans ((Prod.mk.injEq _ _ _ _).mp h'').1.symm)
      · rw [hfmt] at hSave
        rcases pilSave_err_inv env fs output f0 _ _ fs' e hSave with
          ⟨_, _, _, hfs'⟩ | ⟨henc, hor⟩
        · exact Or.inl (hfs₂.trans hfs')
        · rcases hor with ⟨hnone, hfs'⟩ | ⟨hsome, hfs'⟩
          · exact Or.inl (hfs₂.trans hfs')
          · exact Or.inr ⟨hsome, hfs₂.trans hfs'⟩
    | none =>
      have hrun' : finishResult env fs' "Compressed" (fsSize fs input) output
          = (r, fs₂) := hrun
      obtain ⟨hosz, _, _⟩ := finishResult_fail_inv _ _ _ _ _ _ _ hrun' hfail
      obtain ⟨file, d, hfile, _, _⟩ := pilOpen_ok_inv fs input img0 hOpen
      rw [fsSize_of_some fs input file hfile] at hosz
      exact absurd hosz (hsz file hfile)

theorem convert_image_fail_fs (env : Codec) (fs : Fs) (input output : PyPath)
    (target : String) (q : ℤ) (rm : Bool) (r : Bool × String × ℚ) (fs₂ : Fs)
    (hrun : convert_image env fs input output target q rm = (r, fs₂))
    (hfail : r.1 = false)
    (hsz : ∀ f, fs input = some f → f.size ≠ 0) :
    fs₂ = fs ∨
      ∃ ext, (ext = webpExt ∨ ext = avifExt) ∧
        fs (convertWritePath output ext) ≠ none ∧
        fs₂ = updateFs fs (convertWritePath output ext) (some (truncatedFile env)) := by
  cases hOpen : pilOpen fs input with
  | error e =>
    rw [convert_image_open_error env fs input output target q rm e hOpen] at hrun
    exact Or.inl ((Prod.mk.injEq _ _ _ _).mp hrun).2.symm
  | ok img0 =>
    by_cases hw : pyLower target = "webp"
    · rw [convert_image_webp_eq env fs input output target q rm img0 hOpen hw] at hrun
      rcases hSave : pilSave env fs (convertWritePath output webpExt) (some "WEBP")
          (normalizeForTarget img0 target)
          (convertOpts (normalizeForTarget img0 target) target q rm) with ⟨fs', oe⟩
      rw [hSave] at hrun
      cases oe with
      | some e =>
        have hrun' : ((false, errPre ++ e, 0), fs') = (r, fs₂) := hrun
        have hfs₂ : fs₂ = fs' := ((Prod.mk.injEq _ _ _ _).mp hrun').2.symm
        rcases pilSave_err_inv env fs (convertWritePath output webpExt) _ _ _ fs' e hSave with
          ⟨hWA, _, _, _⟩ | ⟨henc, hor⟩
        · simp at hWA
        · rcases hor with ⟨hnone, hfs'⟩ | ⟨hsome, hfs'⟩
          · exact Or.inl (hfs₂.trans hfs')
          · exact Or.inr ⟨webpExt, Or.inl rfl, hsome, hfs₂.trans hfs'⟩
      | none =>
        have hrun' : finishResult env fs' target (fsSize fs input)
            (convertWritePath output webpExt) = (r, fs₂) := hrun
        obtain ⟨hosz, _, _⟩ := finishResult_fail_inv _ _ _ _ _ _ _ hrun' hfail
        obtain ⟨file, d, hfile, _, _⟩ := pilOpen_ok_inv fs input img0 hOpen
        rw [fsSize_of_some fs input file hfile] at hosz
        exact absurd hosz (hsz file hfile)
    · by_cases ha : pyLower target = "avif"
      · rw [convert_image_avif_eq env fs input output target q rm img0 hOpen hw ha] at hrun
        rcases hSave : pilSave env fs (convertWritePath output avifExt) (some "AVIF")
            (normalizeForTarget img0 target)
            (convertOpts (normalizeForTarget img0 target) target q rm) with ⟨fs', oe⟩
        rw [hSave] at hrun
        cases oe with
        | some e =>
          have hrun' : ((if pyInStr cannotWriteModeStr (pyLower e).data ∨
              pyInStr avifSubStr (pyLower e).data
              then ((false, avifPluginMsg, 0), fs')
              else ((false, errPre ++ e, 0), fs')) : (Bool × String × ℚ) × Fs)
              = (r, fs₂) := hrun
          have hfs₂ : fs₂ = fs' := by
            split at hrun' <;> exact ((Prod.mk.injEq _ _ _ _).mp hrun').2.symm
          rcases pilSave_err_inv env fs (convertWritePath output avifExt) _ _ _ fs' e hSave with
            ⟨_, _, _, hfs'⟩ | ⟨henc, hor⟩
          · exact Or.inl (hfs₂.trans hfs')
          · rcases hor with ⟨hnone, hfs'⟩ | ⟨hsome, hfs'⟩
            · exact Or.inl (hfs₂.trans hfs')
            · exact Or.inr ⟨avifExt, Or.inr rfl, hsome, hfs₂.trans hfs'⟩
        | none =>
          have hrun' : finishResult env fs' target (fsSize fs input)
              (convertWritePath output avifExt) = (r, fs₂) := hrun
          obtain ⟨hosz, _, _⟩ := finishResult_fail_inv _ _ _ _ _ _ _ hrun' hfail
          obtain ⟨file, d, hfile, _, _⟩ := pilOpen_ok_inv fs input img0 hOpen
          rw [fsSize_of_some fs input file hfile] at hosz
          exact absurd hosz (hsz file hfile)
      · rw [convert_image_unsupported env fs input output target q rm img0 hOpen hw ha] at hrun
        exact Or.inl ((Prod.mk.injEq _ _ _ _).mp hrun).2.symm

theorem convertWritePath_webp_ne_avif (output : PyPath) :
    convertWritePath output webpExt ≠ convertWritePath output avifExt := by
  intro h
  rw [convertWritePath, convertWritePath] at h
  have h' := List.append_cancel_left h
  exact absurd h' (by decide)

/-- C4: for every successful compress or convert operation (over every
encoder behaviour), the returned reduction value equals
`(original − output) / original * 100` computed from the on-disk byte
sizes — the input's size before the run and the written file's size
after it — and the value is returned as-is: the final conjunct runs a
concrete conversion whose output (12 bytes) is larger than its input
(10 bytes) and gets exactly −20, not a clamped value. -/
theorem claim_C4 :
    (∀ (env : Codec) (fs : Fs) (input output : PyPath) (target : String)
        (q : ℤ) (rm : Bool) (r : Bool × String × ℚ) (fs₂ : Fs),
      convert_image env fs input output target q rm = (r, fs₂) → r.1 = true →
      ∃ ext fOut, (ext = webpExt ∨ ext = avifExt) ∧
        fs₂ (convertWritePath output ext) = some fOut ∧
        fsSize fs input ≠ 0 ∧
        r.2.2 = ((fsSize fs input : ℚ) - (fOut.size : ℚ)) / (fsSize fs input : ℚ) * 100) ∧
    (∀ (env : Codec) (fs : Fs) (input output : PyPath) (q : ℤ) (rm : Bool)
        (r : Bool × String × ℚ) (fs₂ : Fs),
      compress_image env fs input output q rm = (r, fs₂) → r.1 = true →
      ∃ fOut, fs₂ output = some fOut ∧ fsSize fs input ≠ 0 ∧
        r.2.2 = ((fsSize fs input : ℚ) - (fOut.size : ℚ)) / (fsSize fs input : ℚ) * 100) ∧
    (convert_image (codecOk 12) (fsOf laSource 10) inPng outReq webpT 80 true).1.2.2
      = -20 := by
  refine ⟨?_, ?_, ?_⟩
  · intro env fs input output target q rm r fs₂ hrun hsucc
    obtain ⟨img0, fmt, ext, n, hOpen, hcase, hosz, henc, hfs₂, hr⟩ :=
      convert_image_success_shape env fs input output target q rm r fs₂ hrun hsucc
    refine ⟨ext, encodedFile env fmt (normalizeForTarget img0 target)
      (convertOpts (normalizeForTarget img0 target) target q rm) n, ?_, ?_, hosz, ?_⟩
    · rcases hcase with ⟨h1, h2, he⟩ | ⟨h1, h2, h3, he⟩
      · exact Or.inl he
      · exact Or.inr he
    · rw [hfs₂]; simp [updateFs]
    · rw [hr]; rfl
  · intro env fs input output q rm r fs₂ hrun hsucc
    obtain ⟨img0, f0, n, hOpen, hfmt, hosz, henc, hfs₂, hr⟩ :=
      compress_image_success_shape env fs input output q rm r fs₂ hrun hsucc
    refine ⟨encodedFile env f0 (compressedImg img0) (compressSaveOpts img0 q rm) n,
      ?_, hosz, ?_⟩
    · rw [hfs₂]; simp [updateFs]
    · rw [hr]; rfl
  · show ((10 : ℚ) - 12) / 10 * 100 = -20
    norm_num

/-- Witness for C4 on a concrete conversion whose output is larger than
its input: the reduction is the exact (negative) formula value. -/
theorem claim_C4_witness :
    ∃ ext fOut, (ext = webpExt ∨ ext = avifExt) ∧
      (convert_image (codecOk 12) (fsOf laSource 10) inPng outReq webpT 80 true).2
        (convertWritePath outReq ext) = some fOut ∧
      fsSize (fsOf laSource 10) inPng ≠ 0 ∧
      (convert_image (codecOk 12) (fsOf laSource 10) inPng outReq webpT 80 true).1.2.2
        = ((fsSize (fsOf laSource 10) inPng : ℚ) - (fOut.size : ℚ))
            / (fsSize (fsOf laSource 10) inPng : ℚ) * 100 :=
  claim_C4.1 (codecOk 12) (fsOf laSource 10) inPng outReq webpT 80 true
    (convert_image (codecOk 12) (fsOf laSource 10) inPng outReq webpT 80 true).1
    (convert_image (codecOk 12) (fsOf laSource 10) inPng outReq webpT 80 true).2
    rfl (by decide)

theorem compressSaveOpts_quality (img0 : PILImage) (q : ℤ) (rm : Bool) :
    (compressSaveOpts img0 q rm).quality = some q := by
  rw [compressSaveOpts]
  split
  · rfl
  · split <;> rfl

/-- C2: for every quality outside `[1, 100]`, the effective quality the
encoder is handed equals `clamp(quality, 1, 100)` — it is corrected to
the nearest bound, lands in `[1, 100]`, and is never rejected (the
pipeline is total); moreover, on any successful compression run with
the clamped quality, the file written to disk records exactly
`validate_quality` of the original input as the quality the encoder
received. -/
theorem claim_C2 (uq : ℚ) (hout : uq < 1 ∨ 100 < uq) :
    ((effectiveEncoderQuality uq : ℚ) = specClampQuality uq ∧
      1 ≤ effectiveEncoderQuality uq ∧ effectiveEncoderQuality uq ≤ 100) ∧
    (∀ (env : Codec) (fs : Fs) (input output : PyPath) (rm : Bool)
        (r : Bool × String × ℚ) (fs₂ : Fs),
      compress_image env fs input output (effectiveEncoderQuality uq) rm = (r, fs₂) →
      r.1 = true →
      ∃ fOut d, fs₂ output = some fOut ∧ fOut.content = .image d ∧
        d.encQuality = some (validate_quality uq)) := by
  constructor
  · rcases hout with h | h
    · have ht : pyTrunc uq ≤ 0 := pyTrunc_nonpos uq h
      have h1 : validate_quality uq = 1 := by
        rw [validate_quality, min_eq_right (by omega : pyTrunc uq ≤ 100),
          max_eq_left (by omega : pyTrunc uq ≤ 1)]
      have h2 : specClampQuality uq = 1 := by
        rw [specClampQuality, min_eq_right (by linarith : uq ≤ 100),
          max_eq_left (by linarith : uq ≤ 1)]
      refine ⟨?_, ?_, ?_⟩
      · rw [effectiveEncoderQuality, h1, h2]; norm_num
      · rw [effectiveEncoderQuality, h1]
      · rw [effectiveEncoderQuality, h1]; norm_num
    · have ht : 100 ≤ pyTrunc uq := pyTrunc_ge_100 uq h
      have h1 : validate_quality uq = 100 := by
        rw [validate_quality, min_eq_left (by omega : (100 : ℤ) ≤ pyTrunc uq),
          max_eq_right (by norm_num : (1 : ℤ) ≤ 100)]
      have h2 : specClampQuality uq = 100 := by
        rw [specClampQuality, min_eq_left (by linarith : (100 : ℚ) ≤ uq),
          max_eq_right (by norm_num : (1 : ℚ) ≤ 100)]
      refine ⟨?_, ?_, ?_⟩
      · rw [effectiveEncoderQuality, h1, h2]; norm_num
      · rw [effectiveEncoderQuality, h1]; norm_num
      · rw [effectiveEncoderQuality, h1]
  · intro env fs input output rm r fs₂ hrun hsucc
    obtain ⟨img0, f0, n, hOpen, hfmt, hosz, henc, hfs₂, hr⟩ :=
      compress_image_success_shape env fs input output (effectiveEncoderQuality uq)
        rm r fs₂ hrun hsucc
    refine ⟨encodedFile env f0 (compressedImg img0)
        (compressSaveOpts img0 (effectiveEncoderQuality uq) rm) n,
      _, ?_, rfl, ?_⟩
    · rw [hfs₂]; simp [updateFs]
    · show (compressSaveOpts img0 (effectiveEncoderQuality uq) rm).quality
        = some (validate_quality uq)
      rw [compressSaveOpts_quality]
      rfl

/-- Witness for C2 at the concrete out-of-range quality 150. -/
theorem claim_C2_witness :
    ((effectiveEncoderQuality 150 : ℚ) = specClampQuality 150 ∧
      1 ≤ effectiveEncoderQuality 150 ∧ effectiveEncoderQuality 150 ≤ 100) ∧
    (∀ (env : Codec) (fs : Fs) (input output : PyPath) (rm : Bool)
        (r : Bool × String × ℚ) (fs₂ : Fs),
      compress_image env fs input output (effectiveEncoderQuality 150) rm = (r, fs₂) →
      r.1 = true →
      ∃ fOut d, fs₂ output = some fOut ∧ fOut.content = .image d ∧
        d.encQuality = some (validate_quality 150)) :=
  claim_C2 150 (Or.inr (by norm_num))

/-- C10 (amended): the EXIF snapshot is indeed read only after
color-mode normalization (converter.py line 51 runs after lines 27-41),
but this does not discard metadata for converted modes: Pillow's
`Image.convert` copies the image's `info` dictionary, so the snapshot
still sees the source's EXIF.  Consequently, for every WebP conversion
with `remove_metadata=false` that succeeds — whatever the source mode,
including palette-indexed and `LA` sources that were converted to RGB —
the written file carries exactly the source image's EXIF.  (The only
normalization that clears metadata, white compositing, never occurs for
a WebP target.) -/
theorem claim_C10_amended :
    ∀ (env : Codec) (fs : Fs) (input output : PyPath) (target : String)
      (q : ℤ) (r : Bool × String × ℚ) (fs₂ : Fs) (img0 : PILImage),
      pyLower target = "webp" →
      pilOpen fs input = .ok img0 →
      convert_image env fs input output target q false = (r, fs₂) →
      r.1 = true →
      (normalizeForTarget img0 target).exif = img0.exif ∧
      ∃ fOut d, fs₂ (convertWritePath output webpExt) = some fOut ∧
        fOut.content = .image d ∧ d.exif = img0.exif := by
  intro env fs input output target q r fs₂ img0 hw hOpen hrun hsucc
  obtain ⟨img0', fmt, ext, n, hOpen', hcase, hosz, henc, hfs₂, hr⟩ :=
    convert_image_success_shape env fs input output target q false r fs₂ hrun hsucc
  rw [hOpen] at hOpen'
  have himg : img0 = img0' := by
    simpa using hOpen'
  subst himg
  have hne := normalize_exif_webp img0 target hw
  rcases hcase with ⟨_, hfmt, hext⟩ | ⟨hnw, _, _, _⟩
  · subst hfmt hext
    refine ⟨hne, encodedFile env "WEBP" (normalizeForTarget img0 target)
        (convertOpts (normalizeForTarget img0 target) target q false) n, _, ?_, rfl, ?_⟩
    · rw [hfs₂]; simp [updateFs]
    · show (convertOpts (normalizeForTarget img0 target) target q false).exif
        = img0.exif
      rw [convertOpts]
      by_cases hlen : 0 < img0.exif.length
      · show (if false = false ∧ 0 < (normalizeForTarget img0 target).exif.length ∧
            pyLower target = "webp"
            then (normalizeForTarget img0 target).exif else []) = img0.exif
        rw [hne, if_pos ⟨rfl, hlen, hw⟩]
      · have hnil : img0.exif = [] := by
          cases hx : img0.exif with
          | nil => rfl
          | cons a t => rw [hx] at hlen; simp at hlen
        show (if false = false ∧ 0 < (normalizeForTarget img0 target).exif.length ∧
            pyLower target = "webp"
            then (normalizeForTarget img0 target).exif else []) = img0.exif
        rw [hne, hnil]
        simp
  · exact absurd hw hnw

/-- Witness for the amended C10: a concrete palette-indexed source with
EXIF converted to WebP with metadata kept — the EXIF lands in the
output even though the mode was converted. -/
theorem claim_C10_witness :
    (normalizeForTarget (toPILImage pSource) webpT).exif = (toPILImage pSource).exif ∧
    ∃ fOut d, ((convert_image (codecOk 12) (fsOf pSource 10) inPng outReq webpT 80
        false).2) (convertWritePath outReq webpExt) = some fOut ∧
      fOut.content = .image d ∧ d.exif = (toPILImage pSource).exif :=
  claim_C10_amended (codecOk 12) (fsOf pSource 10) inPng outReq webpT 80
    (convert_image (codecOk 12) (fsOf pSource 10) inPng outReq webpT 80 false).1
    (convert_image (codecOk 12) (fsOf pSource 10) inPng outReq webpT 80 false).2
    (toPILImage pSource) (by decide) rfl rfl (by decide)

/-- Counterexample to C10 as stated: a palette-indexed (`P`) source with
EXIF, converted to WebP with `remove_metadata=false`, forwards its EXIF
to the output — the claim says a converted mode means no EXIF is
forwarded.  The run succeeds and the stored file's EXIF equals the
source's non-empty EXIF. -/
theorem claim_C10_counterexample :
    pSource.mode = pM ∧
    pM ≠ rgbaM ∧
    (convert_image (codecOk 12) (fsOf pSource 10) inPng outReq webpT 80 false).1.1
      = true ∧
    ((convert_image (codecOk 12) (fsOf pSource 10) inPng outReq webpT 80 false).2 outWebp)
      = some { size := 12, mtime := 7, statOk := true,
               content := .image
                 { mode := rgbMode, width := 2, height := 2, format := "WEBP",
                   exif := exifSample, pixels := .converted pxSample rgbMode,
                   encQuality := some 80 } } ∧
    exifSample ≠ [] :=
  ⟨rfl, by decide, by decide, by decide, by decide⟩

theorem avifPluginMsg_not_generic (s : String) : avifPluginMsg ≠ errPre ++ s := by
  intro h
  have hd := congrArg String.data h
  rw [String.data_append] at hd
  simp [avifPluginMsg, errPre] at hd

/-- C5: in an environment without the AVIF encoder, every AVIF
conversion of a readable source image returns `success=false` with the
dedicated plugin message — which is not of the generic `"Error: ..."`
shape — leaves the filesystem untouched, and raises nothing (the
embedded function is total).  The Pillow `KeyError('AVIF')` raised at
the SAVE-registry lookup stringifies to `'AVIF'`, which the code's
substring test maps to the dedicated message. -/
theorem claim_C5 :
    ∀ (env : Codec) (fs : Fs) (input output : PyPath) (target : String)
      (q : ℤ) (rm : Bool) (img0 : PILImage),
      env.avifAvailable = false →
      pyLower target = "avif" →
      pilOpen fs input = .ok img0 →
      (convert_image env fs input output target q rm).1 = (false, avifPluginMsg, 0) ∧
      (convert_image env fs input output target q rm).2 = fs ∧
      (∀ s, avifPluginMsg ≠ errPre ++ s) := by
  intro env fs input output target q rm img0 hav ha hOpen
  have hw : pyLower target ≠ "webp" := by rw [ha]; decide
  rw [convert_image_avif_eq env fs input output target q rm img0 hOpen hw ha,
    pilSave_avif_unavailable env fs _ _ _ hav]
  refine ⟨?_, ?_, avifPluginMsg_not_generic⟩
  · show ((if pyInStr cannotWriteModeStr (pyLower "'AVIF'").data ∨
        pyInStr avifSubStr (pyLower "'AVIF'").data
        then ((false, avifPluginMsg, 0), fs)
        else ((false, errPre ++ "'AVIF'", 0), fs)) : (Bool × String × ℚ) × Fs).1
      = (false, avifPluginMsg, 0)
    rw [if_pos (by decide)]
  · show ((if pyInStr cannotWriteModeStr (pyLower "'AVIF'").data ∨
        pyInStr avifSubStr (pyLower "'AVIF'").data
        then ((false, avifPluginMsg, 0), fs)
        else ((false, errPre ++ "'AVIF'", 0), fs)) : (Bool × String × ℚ) × Fs).2
      = fs
    rw [if_pos (by decide)]

/-- Witness for C5: a concrete AVIF conversion in an AVIF-less
environment. -/
theorem claim_C5_witness :
    (convert_image (codecNoAvif 12) (fsOf laSource 10) inPng outReq avifT 80 false).1
      = (false, avifPluginMsg, 0) ∧
    (convert_image (codecNoAvif 12) (fsOf laSource 10) inPng outReq avifT 80 false).2
      = fsOf laSource 10 ∧
    (∀ s, avifPluginMsg ≠ errPre ++ s) :=
  claim_C5 (codecNoAvif 12) (fsOf laSource 10) inPng outReq avifT 80 false
    (toPILImage laSource) rfl (by decide) rfl

theorem pilSave_avif_error (env : Codec) (fs : Fs) (p : PyPath) (img : PILImage)
    (opts : SaveOpts) (e : String) (hav : env.avifAvailable = true)
    (henc : env.encode "AVIF" img opts = .error e) :
    ∃ fs', pilSave env fs p (some "AVIF") img opts = (fs', some e) := by
  rw [pilSave, if_neg (by simp [hav]), henc]
  rcases hfp : fs p with _ | file
  · exact ⟨fs, by simp [hfp]⟩
  · exact ⟨updateFs fs p (some (truncatedFile env)), by simp [hfp]⟩

/-- C9: in an AVIF conversion, any encoder exception whose message
contains `avif` or `cannot write mode` (case-insensitively) is reported
as the plugin-missing message, whatever its real cause; only messages
containing neither produce the generic `"Error: ..."` result. -/
theorem claim_C9 :
    ∀ (env : Codec) (fs : Fs) (input output : PyPath) (target : String)
      (q : ℤ) (rm : Bool) (img0 : PILImage) (msg : String),
      env.avifAvailable = true →
      pyLower target = "avif" →
      pilOpen fs input = .ok img0 →
      (∀ im op, env.encode "AVIF" im op = .error msg) →
      (convert_image env fs input output target q rm).1 =
        (if pyInStr cannotWriteModeStr (pyLower msg).data ∨
            pyInStr avifSubStr (pyLower msg).data
         then (false, avifPluginMsg, 0)
         else (false, errPre ++ msg, 0)) := by
  intro env fs input output target q rm img0 msg hav ha hOpen henc
  have hw : pyLower target ≠ "webp" := by rw [ha]; decide
  rw [convert_image_avif_eq env fs input output target q rm img0 hOpen hw ha]
  obtain ⟨fs', hSave⟩ := pilSave_avif_error env fs (convertWritePath output avifExt)
    (normalizeForTarget img0 target)
    (convertOpts (normalizeForTarget img0 target) target q rm) msg hav (henc _ _)
  rw [hSave]
  show ((if pyInStr cannotWriteModeStr (pyLower msg).data ∨
      pyInStr avifSubStr (pyLower msg).data
      then ((false, avifPluginMsg, 0), fs')
      else ((false, errPre ++ msg, 0), fs')) : (Bool × String × ℚ) × Fs).1
    = (if pyInStr cannotWriteModeStr (pyLower msg).data ∨
        pyInStr avifSubStr (pyLower msg).data
       then (false, avifPluginMsg, 0)
       else (false, errPre ++ msg, 0))
  split <;> rfl

def diskFullAvifMsg : String := "Disk full while writing AVIF stream"

/-- Witness for C9: an encoder failure that has nothing to do with a
missing plugin ("Disk full while writing AVIF stream") is nevertheless
reported as the plugin-missing message, because its lowercase form
contains `avif`. -/
theorem claim_C9_witness :
    (convert_image (codecFail diskFullAvifMsg) (fsOf laSource 10) inPng outReq avifT
        80 false).1 =
      (if pyInStr cannotWriteModeStr (pyLower diskFullAvifMsg).data ∨
          pyInStr avifSubStr (pyLower diskFullAvifMsg).data
       then (false, avifPluginMsg, 0)
       else (false, errPre ++ diskFullAvifMsg, 0)) :=
  claim_C9 (codecFail diskFullAvifMsg) (fsOf laSource 10) inPng outReq avifT 80 false
    (toPILImage laSource) diskFullAvifMsg rfl (by decide) rfl (fun _ _ => rfl)

def dfMsg : String := "disk full"

def fsPre : Fs :=
  fun p => if p = inPng then some (mkSrcFile rgbJpegSource 10)
           else if p = outReq then some (mkSrcFile pSource 3) else none

/-- C7 (amended): a failing compress or convert leaves no file at the
(derived) output path provided that path did not already exist — the
open-then-encode failure modes either happen before the output is
opened or trigger Pillow's removal of the file it created; and a
success is only reported with the output durably on disk.  What the
original claim misses is the overwrite case: when the output path
already exists, `Image.save` truncates it before encoding and a
failing encode leaves that truncated artifact behind (see the
counterexample). -/
theorem claim_C7_amended :
    (∀ (env : Codec) (fs : Fs) (input output : PyPath) (q : ℤ) (rm : Bool)
        (r : Bool × String × ℚ) (fs₂ : Fs),
      compress_image env fs input output q rm = (r, fs₂) → r.1 = false →
      (∀ f, fs input = some f → f.size ≠ 0) →
      fs output = none →
      fs₂ output = none) ∧
    (∀ (env : Codec) (fs : Fs) (input output : PyPath) (target : String)
        (q : ℤ) (rm : Bool) (r : Bool × String × ℚ) (fs₂ : Fs) (ext : PyPath),
      convert_image env fs input output target q rm = (r, fs₂) → r.1 = false →
      (∀ f, fs input = some f → f.size ≠ 0) →
      (ext = webpExt ∨ ext = avifExt) →
      fs (convertWritePath output ext) = none →
      fs₂ (convertWritePath output ext) = none) ∧
    (∀ (env : Codec) (fs : Fs) (input output : PyPath) (q : ℤ) (rm : Bool)
        (r : Bool × String × ℚ) (fs₂ : Fs),
      compress_image env fs input output q rm = (r, fs₂) → r.1 = true →
      fs₂ output ≠ none) := by
  refine ⟨?_, ?_, ?_⟩
  · intro env fs input output q rm r fs₂ hrun hfail hsz hnone
    rcases compress_image_fail_fs env fs input output q rm r fs₂ hrun hfail hsz with
      hfs₂ | ⟨hsome, _⟩
    · rw [hfs₂]; exact hnone
    · exact absurd hnone hsome
  · intro env fs input output target q rm r fs₂ ext hrun hfail hsz hext hnone
    rcases convert_image_fail_fs env fs input output target q rm r fs₂ hrun hfail hsz
      with hfs₂ | ⟨ext', hext', hsome, hfs₂⟩
    · rw [hfs₂]; exact hnone
    · rcases hext with he | he <;> rcases hext' with he' | he'
      · subst he he'; exact absurd hnone hsome
      · subst he he'
        rw [hfs₂]
        simp only [updateFs]
        rw [if_neg (convertWritePath_webp_ne_avif output)]
        exact hnone
      · subst he he'
        rw [hfs₂]
        simp only [updateFs]
        rw [if_neg (Ne.symm (convertWritePath_webp_ne_avif output))]
        exact hnone
      · subst he he'; exact absurd hnone hsome
  · intro env fs input output q rm r fs₂ hrun hsucc
    obtain ⟨img0, f0, n, hOpen, hfmt, hosz, henc, hfs₂, hr⟩ :=
      compress_image_success_shape env fs input output q rm r fs₂ hrun hsucc
    rw [hfs₂]
    simp [updateFs]

/-- Witness for the amended C7: a concrete compress whose encoder fails
("disk full") with no pre-existing output file — no file appears at the
output path. -/
theorem claim_C7_witness :
    (compress_image (codecFail dfMsg) (fsOf rgbJpegSource 10) inPng outReq 80 true).2
      outReq = none :=
  claim_C7_amended.1 (codecFail dfMsg) (fsOf rgbJpegSource 10) inPng outReq 80 true
    (compress_image (codecFail dfMsg) (fsOf rgbJpegSource 10) inPng outReq 80 true).1
    (compress_image (codecFail dfMsg) (fsOf rgbJpegSource 10) inPng outReq 80 true).2
    rfl (by decide)
    (fun f hf => by
      have hfm : mkSrcFile rgbJpegSource 10 = f := by simpa [fsOf] using hf
      rw [← hfm]
      decide)
    (by decide)

/-- Counterexample to C7 as stated: a compress over a pre-existing
output file whose encoder fails ("disk full").  The operation returns a
failure result, yet a zero-byte truncated artifact is left at the
output path (on top of the destroyed pre-existing file): `Image.save`
truncates the existing file when opening it `w+b`, and on error removes
the output only when it created the file itself. -/
theorem claim_C7_counterexample :
    fsPre outReq = some (mkSrcFile pSource 3) ∧
    (compress_image (codecFail dfMsg) fsPre inPng outReq 80 true).1.1 = false ∧
    ((compress_image (codecFail dfMsg) fsPre inPng outReq 80 true).2 outReq)
      = some (truncatedFile (codecFail dfMsg)) ∧
    some (truncatedFile (codecFail dfMsg)) ≠ (none : Option FsFile) :=
  ⟨by decide, by decide, by decide, by decide⟩

theorem pilOpen_of_image (fs : Fs) (p : PyPath) (f : FsFile) (d : ImgData)
    (hf : fs p = some f) (hc : f.content = .image d) :
    pilOpen fs p = .ok (toPILImage d) := by
  simp [pilOpen, hf, hc]

/-- C6: whenever the input opens as an image with EXIF data and
`strip_metadata` reports success, the output file has no EXIF
(`has_exif_data` on the result is false), and it preserves the source's
color mode, dimensions, encoded format and pixel data — the image was
rebuilt from raw pixels via a fresh `Image.new` and saved with no
metadata keyword, so nothing ancillary survives. -/
theorem claim_C6 :
    ∀ (env : Codec) (fs : Fs) (ip op : PyPath) (r : Bool × String) (fs₂ : Fs)
      (f : FsFile) (d : ImgData),
      fs ip = some f → f.content = .image d →
      has_exif_data fs ip = true →
      strip_metadata env fs ip op = (r, fs₂) → r.1 = true →
      has_exif_data fs₂ op = false ∧
      ∃ fOut d', fs₂ op = some fOut ∧ fOut.content = .image d' ∧
        d'.exif = [] ∧ d'.mode = d.mode ∧ d'.width = d.width ∧
        d'.height = d.height ∧ d'.format = d.format ∧ d'.pixels = d.pixels := by
  intro env fs ip op r fs₂ f d hf hc hexif hrun hsucc
  have hOpen := pilOpen_of_image fs ip f d hf hc
  rw [strip_metadata_eq env fs ip op (toPILImage d) hOpen] at hrun
  rcases hSave : pilSave env fs op (toPILImage d).format
      (strippedImg (toPILImage d)) stripOpts with ⟨fs', oe⟩
  rw [hSave] at hrun
  cases oe with
  | some e =>
    have hrun' : ((false, stripErrPre ++ e), fs') = (r, fs₂) := hrun
    obtain ⟨h1, h2⟩ := (Prod.mk.injEq _ _ _ _).mp hrun'
    rw [← h1] at hsucc
    simp at hsucc
  | none =>
    have hrun' : ((true, stripOkMsg), fs') = (r, fs₂) := hrun
    obtain ⟨h1, h2⟩ := (Prod.mk.injEq _ _ _ _).mp hrun'
    have hSave' : pilSave env fs op (some d.format)
        (strippedImg (toPILImage d)) stripOpts = (fs', none) := hSave
    obtain ⟨n, henc, hfs'⟩ := pilSave_ok_inv env fs op d.format
      (strippedImg (toPILImage d)) stripOpts fs' hSave'
    subst hfs'
    rw [← h2]
    constructor
    · simp [has_exif_data, pilOpen, updateFs, encodedFile, stripOpts, toPILImage,
        strippedImg]
    · exact ⟨encodedFile env d.format (strippedImg (toPILImage d)) stripOpts n,
        { mode := d.mode, width := d.width, height := d.height, format := d.format,
          exif := [], pixels := d.pixels, encQuality := none },
        by simp [updateFs], rfl, rfl, rfl, rfl, rfl, rfl, rfl⟩

/-- Witness for C6 on a concrete JPEG source carrying EXIF. -/
theorem claim_C6_witness :
    has_exif_data
      ((strip_metadata (codecOk 4) (fsOf rgbJpegSource 10) inPng outReq).2) outReq
      = false ∧
    ∃ fOut d', ((strip_metadata (codecOk 4) (fsOf rgbJpegSource 10) inPng outReq).2)
        outReq = some fOut ∧ fOut.content = .image d' ∧
      d'.exif = [] ∧ d'.mode = rgbJpegSource.mode ∧ d'.width = rgbJpegSource.width ∧
      d'.height = rgbJpegSource.height ∧ d'.format = rgbJpegSource.format ∧
      d'.pixels = rgbJpegSource.pixels :=
  claim_C6 (codecOk 4) (fsOf rgbJpegSource 10) inPng outReq
    (strip_metadata (codecOk 4) (fsOf rgbJpegSource 10) inPng outReq).1
    (strip_metadata (codecOk 4) (fsOf rgbJpegSource 10) inPng outReq).2
    (mkSrcFile rgbJpegSource 10) rgbJpegSource
    (by decide) rfl (by decide) rfl (by decide)

def outDir : PyPath := "out".data

/-- C3: predicted and actual output paths agree byte-for-byte.  For
every input path and output directory: the filename check_conflicts
derives for WebP (resp. AVIF) joined with the directory equals the path
convert_image derives — `splitext` of the orchestrator-built request
output path plus the new extension; for "Keep Original" the predicted
path is exactly the request output path compress_image writes to
verbatim.  The remaining conjuncts close the loop on the real
functions: every record check_conflicts returns carries exactly the
join-derived output path, and convert_image/compress_image touch no
path other than their derived output paths. -/
theorem claim_C3 (fs : Fs) (input output_dir : PyPath) :
    pyJoin output_dir (conflictOutputFilename (pyBasename input) webpFmt)
      = convertWritePath (requestOutputPath output_dir input) webpExt ∧
    pyJoin output_dir (conflictOutputFilename (pyBasename input) avifFmt)
      = convertWritePath (requestOutputPath output_dir input) avifExt ∧
    pyJoin output_dir (conflictOutputFilename (pyBasename input) keepFmt)
      = requestOutputPath output_dir input ∧
    (∀ (ps : List PyPath) (fmt : String) (rrec : ConflictRecord),
      rrec ∈ check_conflicts fs ps output_dir fmt →
      rrec.output = pyJoin output_dir (conflictOutputFilename (pyBasename rrec.input) fmt)) ∧
    (∀ (env : Codec) (fs₀ : Fs) (i o : PyPath) (target : String) (q : ℤ)
        (rm : Bool) (p : PyPath),
      (convert_image env fs₀ i o target q rm).2 p ≠ fs₀ p →
      p = convertWritePath o webpExt ∨ p = convertWritePath o avifExt) ∧
    (∀ (env : Codec) (fs₀ : Fs) (i o : PyPath) (q : ℤ) (rm : Bool) (p : PyPath),
      (compress_image env fs₀ i o q rm).2 p ≠ fs₀ p → p = o) := by
  have hb := pyBasename_noSlash input
  refine ⟨?_, ?_, ?_, ?_, ?_, ?_⟩
  · rw [conflictOutputFilename, if_neg (by decide), if_pos (by decide),
      convertWritePath, requestOutputPath]
    exact predicted_eq_actual output_dir (pyBasename input) webpExt hb (by decide)
  · rw [conflictOutputFilename, if_neg (by decide), if_neg (by decide),
      if_pos (by decide), convertWritePath, requestOutputPath]
    exact predicted_eq_actual output_dir (pyBasename input) avifExt hb (by decide)
  · rw [conflictOutputFilename, if_pos (by decide), requestOutputPath]
  · intro ps fmt rrec hmem
    rw [check_conflicts] at hmem
    obtain ⟨ip, hip, hrec⟩ := List.mem_filterMap.mp hmem
    dsimp only at hrec
    rcases hfp : fs (pyJoin output_dir (conflictOutputFilename (pyBasename ip) fmt))
      with _ | file
    · rw [hfp] at hrec; simp at hrec
    · rw [hfp] at hrec
      simp only [Option.some.injEq] at hrec
      rw [← hrec]
  · intro env fs₀ i o target q rm p hne
    by_contra hcon
    push_neg at hcon
    exact hne (convert_image_apply_ne env fs₀ i o target q rm p hcon.1 hcon.2)
  · intro env fs₀ i o q rm p hne
    by_contra hcon
    exact hne (compress_image_apply_ne env fs₀ i o q rm p hcon)

/-- Witness for C3 at a concrete input path and output directory. -/
theorem claim_C3_witness :
    pyJoin outDir (conflictOutputFilename (pyBasename inPng) webpFmt)
      = convertWritePath (requestOutputPath outDir inPng) webpExt :=
  (claim_C3 (fsOf laSource 10) inPng outDir).1
